import Mathlib

/-!
# Verification of `scripts/fetch-nyt-word.py` (WordleMatch)

A shallow embedding of the single script of this repository.  The script
connects to a browser over CDP, navigates to a computed NYT review URL,
clicks a "reveal" control, extracts a five-letter answer from the page text
with a prioritised list of regular expressions, and hands the record to an
external `node add-word.mjs` subprocess.

External effects (browser, subprocess) are modelled by an explicit
environment describing their outcomes, and each run produces a trace of
effect events; text is modelled over ASCII (the pages and patterns involved
are ASCII).
-/

namespace WordleMatch

/-! ## Character classes (ASCII model of the Python `re` classes) -/

/-- ASCII model of Python `\s` (the whitespace the script's pages contain). -/
def pySpace (c : Char) : Bool :=
  c = ' ' || c = '\t' || c = '\n' || c = '\r' || c = '\x0b' || c = '\x0c'

/-- ASCII model of Python `\d`. -/
def pyDigit (c : Char) : Bool :=
  48 ≤ c.toNat && c.toNat ≤ 57

/-- The `[A-Z]` under `re.IGNORECASE`: any ASCII letter. -/
def asciiLetter (c : Char) : Bool :=
  (65 ≤ c.toNat && c.toNat ≤ 90) || (97 ≤ c.toNat && c.toNat ≤ 122)

/-- ASCII model of Python `\w`, used by the `\b` word-boundary assertion. -/
def pyWord (c : Char) : Bool :=
  asciiLetter c || pyDigit c || c = '_'

/-- Word-ness of an optional character; out-of-string counts as non-word. -/
def wordOpt : Option Char → Bool
  | none => false
  | some c => pyWord c

/-- Case-insensitive character comparison, as `re.IGNORECASE` does on ASCII. -/
def ciEq (a b : Char) : Bool :=
  a.toLower = b.toLower

/-- ASCII model of Python `str.upper` applied character-wise. -/
def pyUpperChar (c : Char) : Char :=
  if 97 ≤ c.toNat && c.toNat ≤ 122 then Char.ofNat (c.toNat - 32) else c

/-! ## The token language of the script's eight patterns

Each pattern in `fetch-nyt-word.py` is a sequence of these constructs and
nothing else, so the embedding represents a pattern as a `List Tok`. -/

inductive Tok where
  /-- A literal, matched case-insensitively (`re.IGNORECASE`). -/
  | lit : List Char → Tok
  /-- The `.?` — optionally any character except a newline, greedy. -/
  | dotOpt : Tok
  /-- The `s?` — an optional letter `s`, case-insensitive, greedy. -/
  | sOpt : Tok
  /-- The `\s+` — one or more whitespace characters, greedy. -/
  | ws : Tok
  /-- The `\d+` — one or more digits, greedy. -/
  | digits : Tok
  /-- The `[:\s]+` — one or more of `:` or whitespace, greedy. -/
  | colonWs : Tok
  /-- The `\b` — word-boundary assertion. -/
  | wb : Tok
  /-- The `([A-Z]{5})` under `re.IGNORECASE` — the single capturing group. -/
  | cap : Tok
deriving DecidableEq

/-- The `[:\s]` character class. -/
def colonOrSpace (c : Char) : Bool :=
  c = ':' || pySpace c

/-- Does the (case-insensitive) literal `l` start the text `s`? -/
def ciPref : List Char → List Char → Bool
  | [], _ => true
  | _ :: _, [] => false
  | a :: as, b :: bs => ciEq a b && ciPref as bs

/-- Number of leading characters of `s` satisfying `p`. -/
def leadCount (p : Char → Bool) : List Char → Nat
  | [] => 0
  | c :: s => if p c then leadCount p s + 1 else 0

/-- The character preceding the position reached after consuming `i`
characters of `s`, given the character `prev` preceding `s` itself. -/
def prevAt (prev : Option Char) (s : List Char) (i : Nat) : Option Char :=
  if i = 0 then prev else s.get? (i - 1)

/-- Backtracking matcher for a token list anchored at the start of `s`,
with `prev` the character just before `s` (for `\b`).  Returns `some r`
when the whole token list matches a prefix of `s`, where `r` is the
concatenation of the texts consumed by `Tok.cap` tokens (each pattern of
the script has exactly one, so `r` is its group 1).  Greedy quantifiers
backtrack from the longest candidate, as Python's engine does.  `fuel`
bounds the recursion depth; the entry point supplies more than any match
can use. -/
def matchToks : Nat → List Tok → Option Char → List Char → Option (List Char)
  | 0, _, _, _ => none
  | _ + 1, [], _, _ => some []
  | fuel + 1, Tok.lit l :: ts, prev, s =>
    if ciPref l s then
      matchToks fuel ts (prevAt prev s l.length) (s.drop l.length)
    else none
  | fuel + 1, Tok.dotOpt :: ts, prev, [] => matchToks fuel ts prev []
  | fuel + 1, Tok.dotOpt :: ts, prev, c :: rest =>
    if c ≠ '\n' then
      match matchToks fuel ts (some c) rest with
      | some r => some r
      | none => matchToks fuel ts prev (c :: rest)
    else matchToks fuel ts prev (c :: rest)
  | fuel + 1, Tok.sOpt :: ts, prev, [] => matchToks fuel ts prev []
  | fuel + 1, Tok.sOpt :: ts, prev, c :: rest =>
    if ciEq c 's' then
      match matchToks fuel ts (some c) rest with
      | some r => some r
      | none => matchToks fuel ts prev (c :: rest)
    else matchToks fuel ts prev (c :: rest)
  | fuel + 1, Tok.ws :: ts, prev, s =>
    let n := leadCount pySpace s
    if n = 0 then none
    else (List.range n).findSome? fun j =>
      matchToks fuel ts (prevAt prev s (n - j)) (s.drop (n - j))
  | fuel + 1, Tok.digits :: ts, prev, s =>
    let n := leadCount pyDigit s
    if n = 0 then none
    else (List.range n).findSome? fun j =>
      matchToks fuel ts (prevAt prev s (n - j)) (s.drop (n - j))
  | fuel + 1, Tok.colonWs :: ts, prev, s =>
    let n := leadCount colonOrSpace s
    if n = 0 then none
    else (List.range n).findSome? fun j =>
      matchToks fuel ts (prevAt prev s (n - j)) (s.drop (n - j))
  | fuel + 1, Tok.wb :: ts, prev, s =>
    if wordOpt prev ≠ wordOpt s.head? then matchToks fuel ts prev s else none
  | fuel + 1, Tok.cap :: ts, _prev, a :: b :: c :: d :: e :: rest =>
    if asciiLetter a && asciiLetter b && asciiLetter c &&
        asciiLetter d && asciiLetter e then
      match matchToks fuel ts (some e) rest with
      | some r => some (a :: b :: c :: d :: e :: r)
      | none => none
    else none
  | _ + 1, Tok.cap :: _, _, [] => none
  | _ + 1, Tok.cap :: _, _, [_] => none
  | _ + 1, Tok.cap :: _, _, [_, _] => none
  | _ + 1, Tok.cap :: _, _, [_, _, _] => none
  | _ + 1, Tok.cap :: _, _, [_, _, _, _] => none

/-- The `re.search`: try the pattern at every position, leftmost first;
`prev` is the character before the current position. -/
def searchAux (pat : List Tok) : Option Char → List Char → Option (List Char)
  | prev, s =>
    match matchToks (s.length + 100) pat prev s with
    | some r => some r
    | none =>
      match s with
      | [] => none
      | c :: rest => searchAux pat (some c) rest

/-- The `re.search(pattern, text, re.IGNORECASE)`, returning group 1. -/
def reSearch (pat : List Tok) (text : String) : Option (List Char) :=
  searchAux pat none text.toList

/-! ## The eight patterns of `fetch_nyt_wordle` (source lines 123-132) -/

/-- The `Today.?s?\s+word\s+is\s+([A-Z]{5})` -/
def pat1 : List Tok :=
  [Tok.lit "Today".toList, Tok.dotOpt, Tok.sOpt, Tok.ws,
   Tok.lit "word".toList, Tok.ws, Tok.lit "is".toList, Tok.ws, Tok.cap]

/-- The `Today.?s?\s+Word[:\s]+([A-Z]{5})` -/
def pat2 : List Tok :=
  [Tok.lit "Today".toList, Tok.dotOpt, Tok.sOpt, Tok.ws,
   Tok.lit "Word".toList, Tok.colonWs, Tok.cap]

/-- The `answer\s+to\s+Wordle\s+\d+\s+is\s+([A-Z]{5})` -/
def pat3 : List Tok :=
  [Tok.lit "answer".toList, Tok.ws, Tok.lit "to".toList, Tok.ws,
   Tok.lit "Wordle".toList, Tok.ws, Tok.digits, Tok.ws,
   Tok.lit "is".toList, Tok.ws, Tok.cap]

/-- The `answer\s+is\s+([A-Z]{5})` -/
def pat4 : List Tok :=
  [Tok.lit "answer".toList, Tok.ws, Tok.lit "is".toList, Tok.ws, Tok.cap]

/-- The `solution\s+is\s+([A-Z]{5})` -/
def pat5 : List Tok :=
  [Tok.lit "solution".toList, Tok.ws, Tok.lit "is".toList, Tok.ws, Tok.cap]

/-- The `Wordle\s+\d+\s+answer[:\s]+([A-Z]{5})` -/
def pat6 : List Tok :=
  [Tok.lit "Wordle".toList, Tok.ws, Tok.digits, Tok.ws,
   Tok.lit "answer".toList, Tok.colonWs, Tok.cap]

/-- The `\b([A-Z]{5})\s+is\s+the\s+answer` -/
def pat7 : List Tok :=
  [Tok.wb, Tok.cap, Tok.ws, Tok.lit "is".toList, Tok.ws,
   Tok.lit "the".toList, Tok.ws, Tok.lit "answer".toList]

/-- The `The word is[:\s]+([A-Z]{5})` -/
def pat8 : List Tok :=
  [Tok.lit "The word is".toList, Tok.colonWs, Tok.cap]

/-- The pattern list, in the priority order of the source. -/
def patterns : List (List Tok) :=
  [pat1, pat2, pat3, pat4, pat5, pat6, pat7, pat8]

/-- The extraction loop of `fetch_nyt_wordle` (source lines 134-140): first
pattern that matches wins, and the captured group is upper-cased. -/
def extractWord (text : String) : Option String :=
  (patterns.findSome? fun p => reSearch p text).map
    fun r => String.mk (r.map pyUpperChar)

example : extractWord "the answer is crane" = some "CRANE" := by decide

example : extractWord "Todays word is Siege!" = some "SIEGE" := by decide

example : extractWord "nothing to see here" = none := by decide

/-! ## Dates and the computed URL (source lines 16-28, 166)

`datetime.now() + timedelta(days=1)` on the date component is the Gregorian
next day; `(tomorrow - datetime(2021,6,19)).days` is the difference of
proleptic-Gregorian ordinals (the time of day each run carries into
`tomorrow` is at least the midnight of the start constant, so `.days` is
exactly the ordinal difference). -/

structure Date where
  year : Nat
  month : Nat
  day : Nat
deriving DecidableEq

/-- Gregorian leap-year rule. -/
def isLeap (y : Nat) : Bool :=
  y % 4 = 0 && (y % 100 ≠ 0 || y % 400 = 0)

/-- The twelve month lengths of year `y`. -/
def monthLengths (y : Nat) : List Nat :=
  [31, if isLeap y then 29 else 28, 31, 30, 31, 30, 31, 31, 30, 31, 30, 31]

/-- Days in month `m` (1-based) of year `y`. -/
def daysInMonth (y m : Nat) : Nat :=
  (monthLengths y).getD (m - 1) 31

/-- The `timedelta(days=1)` on the date component: the Gregorian next day. -/
def nextDay (d : Date) : Date :=
  if d.day < daysInMonth d.year d.month then
    { d with day := d.day + 1 }
  else if d.month < 12 then
    { year := d.year, month := d.month + 1, day := 1 }
  else
    { year := d.year + 1, month := 1, day := 1 }

/-- Proleptic-Gregorian ordinal, as `datetime.date.toordinal`:
day 1 is January 1 of year 1. -/
def toOrdinal (d : Date) : Nat :=
  365 * (d.year - 1) + (d.year - 1) / 4 - (d.year - 1) / 100 +
    (d.year - 1) / 400 + ((monthLengths d.year).take (d.month - 1)).sum + d.day

/-- The `datetime(2021, 6, 19)`, the WORDLE_START_DATE constant of the script. -/
def wordleStart : Date := ⟨2021, 6, 19⟩

/-- The `game_number = (tomorrow - WORDLE_START_DATE).days` for a run whose
current date is `today` (source lines 17-19). -/
def gameNumber (today : Date) : Int :=
  (toOrdinal (nextDay today) : Int) - (toOrdinal wordleStart : Int)

/-- Decimal digit character of `n % 10`. -/
def digit10 (n : Nat) : Char :=
  Nat.digitChar (n % 10)

/-- The `str(n).zfill(2)` for `n ≤ 99` (months and days), as a char list. -/
def two (n : Nat) : List Char :=
  [digit10 (n / 10), digit10 n]

/-- The `%Y` for a four-digit year, as a char list. -/
def four (n : Nat) : List Char :=
  [digit10 (n / 1000), digit10 (n / 100), digit10 (n / 10), digit10 n]

/-- The `tomorrow.strftime('%m/%d/%Y')` (source line 166), modelled for the
two-digit month/day and four-digit year ranges every real run stays in. -/
def fmtDate (d : Date) : String :=
  String.mk (two d.month ++ '/' :: (two d.day ++ '/' :: four d.year))

/-- The record's `date` field for a run whose current date is `today`. -/
def dateStr (today : Date) : String :=
  fmtDate (nextDay today)

/-- The review URL of source line 28, built from TODAY's date components and
the game number. -/
def reviewUrl (today : Date) : String :=
  "https://www.nytimes.com/" ++ toString today.year ++ "/" ++
    String.mk (two today.month) ++ "/" ++ String.mk (two today.day) ++
    "/crosswords/wordle-review-" ++ toString (gameNumber today) ++ ".html"

/-! ## The transient record (source lines 196-200) -/

/-- The record returned on success: exactly the keys `word`, `game_number`
and `date` of the Python dict. -/
structure WordData where
  word : String
  game_number : Int
  date : String
deriving DecidableEq

/-! ## Environment and event traces -/

/-- Outcome of one reveal-button selector attempt (source lines 100-109):
`wait_for_selector` times out, or finds the element but `click` raises
(both swallowed by the bare `except: continue`), or the click succeeds. -/
inductive SelRes where
  | notFound
  | clickFails
  | clickOk
deriving DecidableEq

/-- Outcomes of the external collaborators for one run of
`fetch_nyt_wordle`: whether the CDP connection succeeds, whether the
browser has a context, whether `page.goto` succeeds, the outcome of each
selector attempt (by index), and the page text (`none` models
`text_content` yielding no string, which makes `re.search` raise). -/
structure Env where
  connectOk : Bool
  hasContext : Bool
  navOk : Bool
  selRes : Nat → SelRes
  pageText : Option String

/-- Observable effects and console reports of a run, in order. -/
inductive Ev where
  /-- The `connect_over_cdp` attempt (source line 45). -/
  | connect
  /-- The connection-failure guidance block (source lines 48-61). -/
  | printConnGuidance
  /-- The `[ERROR] No browser context found` (source line 69). -/
  | printNoContext
  /-- The `context.new_page()` (source line 74). -/
  | newPage
  /-- The `page.goto(url, ...)` (source line 78). -/
  | goto (url : String)
  /-- The `page.wait_for_selector(sel, timeout=3000)` (source line 101). -/
  | waitSel (sel : String)
  /-- The `element.click()` attempt (source line 103). -/
  | clickSel (sel : String)
  /-- The `[OK] Clicked reveal button!` (source line 104). -/
  | printClicked
  /-- The `[WARNING] Could not find reveal button, ...` (source line 112). -/
  | printRevealWarn
  /-- The `page.text_content('body')` (source line 120). -/
  | readText
  /-- The `[OK] Found word: ...` (source line 139). -/
  | printFoundWord (w : String)
  /-- The `[ERROR] Could not find the Wordle answer ...` (source line 144). -/
  | printExtractError
  /-- The debug page dump (source lines 148-160). -/
  | saveDebug
  /-- The INFORMATION GATHERED block (source lines 169-177). -/
  | printInfoBlock
  /-- The `page.close()` (source line 180). -/
  | closePage
  /-- The `browser.close()` (source lines 184, 206). -/
  | closeBrowser
  /-- The `taskkill`/`pkill` of the browser process (source lines 188-191, 209-212). -/
  | killProc
  /-- The `[ERROR] {e}` of the outer except (source line 203). -/
  | printErr
  /-- The `subprocess.run(argv, ...)` (source lines 229-236). -/
  | runCmd (argv : List String)
  /-- The `[INFO] Word was not added - already exists ...` (source line 248). -/
  | printDupInfo
  /-- The `[ERROR] Failed to add word to database` (source line 254). -/
  | printAddError
  /-- The `[FAILED] Could not fetch Wordle word` (source line 272). -/
  | printFailed
  /-- The FINAL RESULT block (source lines 279-287). -/
  | printFinal
deriving DecidableEq

/-- The reveal-button selector list of source lines 89-96, in order. -/
def revealSelectors : List String :=
  ["text=\x22Click to reveal\x22",
   "button:has-text(\x22Click to reveal\x22)",
   "button:has-text(\x22reveal\x22)",
   "[aria-label*=\x22reveal\x22]",
   ".reveal-button",
   "button.spoiler-reveal"]

/-- The reveal loop of source lines 98-109: each selector is tried once in
order; a timeout or a raising click falls through to the next selector; a
successful click prints and breaks.  Returns the `clicked` flag and the
events of the loop. -/
def clickLoop (env : Env) : Nat → List String → Bool × List Ev
  | _, [] => (false, [])
  | i, sel :: rest =>
    match env.selRes i with
    | SelRes.clickOk => (true, [Ev.waitSel sel, Ev.clickSel sel, Ev.printClicked])
    | SelRes.clickFails =>
      let r := clickLoop env (i + 1) rest
      (r.1, Ev.waitSel sel :: Ev.clickSel sel :: r.2)
    | SelRes.notFound =>
      let r := clickLoop env (i + 1) rest
      (r.1, Ev.waitSel sel :: r.2)

/-- The `fetch_nyt_wordle` (source lines 13-215): the returned value and the
trace of effects, as a function of the current date and the environment.
Mirrors the source's control flow: connection failure prints guidance and
returns `None`; a missing context closes the connection and returns `None`;
a raising `goto` (or a missing page text, which makes `re.search` raise)
lands in the outer `except`, which closes the connection, kills the browser
process and returns `None`; a page text that no pattern matches prints the
extraction error, saves the debug page, and returns `None` WITHOUT closing
the page ("Don't close browser - let user see what's on the page"); the
success path prints the record, closes the page, closes the connection,
kills the browser process and returns the record. -/
def fetch (today : Date) (env : Env) : Option WordData × List Ev :=
  if !env.connectOk then
    (none, [Ev.connect, Ev.printConnGuidance])
  else if !env.hasContext then
    (none, [Ev.connect, Ev.printNoContext, Ev.closeBrowser])
  else if !env.navOk then
    (none, [Ev.connect, Ev.newPage, Ev.goto (reviewUrl today),
            Ev.printErr, Ev.closeBrowser, Ev.killProc])
  else
    let cl := clickLoop env 0 revealSelectors
    let warn : List Ev := if cl.1 then [] else [Ev.printRevealWarn]
    let pre := Ev.connect :: Ev.newPage :: Ev.goto (reviewUrl today) :: (cl.2 ++ warn)
    match env.pageText with
    | none =>
      (none, pre ++ [Ev.readText, Ev.printErr, Ev.closeBrowser, Ev.killProc])
    | some t =>
      match extractWord t with
      | none =>
        (none, pre ++ [Ev.readText, Ev.printExtractError, Ev.saveDebug])
      | some w =>
        (some ⟨w, gameNumber today, dateStr today⟩,
         pre ++ [Ev.readText, Ev.printFoundWord w, Ev.printInfoBlock,
                 Ev.closePage, Ev.closeBrowser, Ev.killProc])

/-! ## The subprocess hand-off (source lines 217-262) -/

/-- The completed subprocess of `subprocess.run`: exit status and captured
output streams. -/
structure CmdResult where
  returncode : Int
  stdout : String
  stderr : String
deriving DecidableEq

/-- Is `pat` a prefix of `s`? (exact characters, as Python's `in`). -/
def listPre : List Char → List Char → Bool
  | [], _ => true
  | _ :: _, [] => false
  | a :: as, b :: bs => a = b && listPre as bs

/-- Does `pat` occur inside `s`? (Python's `pat in s`). -/
def listSub (pat : List Char) : List Char → Bool
  | [] => listPre pat []
  | c :: rest => listPre pat (c :: rest) || listSub pat rest

/-- Python `pat in s` on strings. -/
def strContains (s pat : String) : Bool :=
  listSub pat.toList s.toList

/-- The argv of source line 230: `['node', 'add-word.mjs', word, date]`. -/
def addArgv (wd : WordData) : List String :=
  ["node", "add-word.mjs", wd.word, wd.date]

/-- The `add_word_to_database` (source lines 217-262) for a run in which the
subprocess completes with `res`: runs the command, and on a nonzero exit
status inspects the combined stdout+stderr for the duplicate markers;
returns `True` exactly on exit status 0. -/
def add_word_to_database (wd : WordData) (res : CmdResult) : Bool × List Ev :=
  if res.returncode ≠ 0 then
    if strContains (res.stdout ++ res.stderr) "already exists" ||
        strContains (res.stdout ++ res.stderr) "No changes made" then
      (false, [Ev.runCmd (addArgv wd), Ev.printDupInfo])
    else
      (false, [Ev.runCmd (addArgv wd), Ev.printAddError])
  else
    (true, [Ev.runCmd (addArgv wd)])

/-- The `main` (source lines 264-287): fetch, then short-circuit on `None`
(an empty-able dict is `None` or the 3-key record, so `if not word_data`
is exactly the `None` test), else hand off to `add_word_to_database`. -/
def mainRun (today : Date) (env : Env) (res : CmdResult) : List Ev :=
  match fetch today env with
  | (none, evs) => evs ++ [Ev.printFailed]
  | (some wd, evs) => evs ++ (add_word_to_database wd res).2 ++ [Ev.printFinal]

/-! ## Lemmas about the matcher -/

/-- Number of capturing groups in a token list. -/
def capCount : List Tok → Nat
  | [] => 0
  | Tok.cap :: ts => capCount ts + 1
  | _ :: ts => capCount ts

lemma findSome?_some {α β : Type} {f : α → Option β} {l : List α} {b : β}
    (h : l.findSome? f = some b) : ∃ a, a ∈ l ∧ f a = some b := by
  induction l with
  | nil => simp [List.findSome?] at h
  | cons x xs ih =>
    rw [List.findSome?_cons] at h
    revert h
    cases hfx : f x with
    | some v =>
      intro h
      exact ⟨x, List.mem_cons_self x xs, by rw [hfx]; exact h⟩
    | none =>
      intro h
      obtain ⟨a, hm, ha⟩ := ih h
      exact ⟨a, List.mem_cons_of_mem x hm, ha⟩

/-- Whatever a successful match returns is the concatenation of the
capturing groups: 5 ASCII letters per `Tok.cap`. -/
lemma matchToks_spec : ∀ fuel ts prev s r,
    matchToks fuel ts prev s = some r →
    r.length = 5 * capCount ts ∧ ∀ c ∈ r, asciiLetter c = true := by
  intro fuel
  induction fuel with
  | zero => intro ts prev s r h; simp [matchToks] at h
  | succ f ih =>
    intro ts prev s r h
    cases ts with
    | nil =>
      simp [matchToks] at h
      subst h
      simp [capCount]
    | cons tok ts =>
      cases tok with
      | lit l =>
        rw [matchToks] at h
        split at h
        · simpa [capCount] using ih _ _ _ _ h
        · exact absurd h (by simp)
      | dotOpt =>
        cases s with
        | nil =>
          rw [matchToks] at h
          simpa [capCount] using ih _ _ _ _ h
        | cons c rest =>
          rw [matchToks] at h
          split at h
          · revert h
            cases hm : matchToks f ts (some c) rest with
            | some v =>
              intro h
              cases h
              simpa [capCount] using ih _ _ _ _ hm
            | none =>
              intro h
              simpa [capCount] using ih _ _ _ _ h
          · simpa [capCount] using ih _ _ _ _ h
      | sOpt =>
        cases s with
        | nil =>
          rw [matchToks] at h
          simpa [capCount] using ih _ _ _ _ h
        | cons c rest =>
          rw [matchToks] at h
          split at h
          · revert h
            cases hm : matchToks f ts (some c) rest with
            | some v =>
              intro h
              cases h
              simpa [capCount] using ih _ _ _ _ hm
            | none =>
              intro h
              simpa [capCount] using ih _ _ _ _ h
          · simpa [capCount] using ih _ _ _ _ h
      | ws =>
        rw [matchToks] at h
        split at h
        · exact absurd h (by simp)
        · obtain ⟨j, -, hj⟩ := findSome?_some h
          simpa [capCount] using ih _ _ _ _ hj
      | digits =>
        rw [matchToks] at h
        split at h
        · exact absurd h (by simp)
        · obtain ⟨j, -, hj⟩ := findSome?_some h
          simpa [capCount] using ih _ _ _ _ hj
      | colonWs =>
        rw [matchToks] at h
        split at h
        · exact absurd h (by simp)
        · obtain ⟨j, -, hj⟩ := findSome?_some h
          simpa [capCount] using ih _ _ _ _ hj
      | wb =>
        rw [matchToks] at h
        split at h
        · simpa [capCount] using ih _ _ _ _ h
        · exact absurd h (by simp)
      | cap =>
        match s with
        | [] => rw [matchToks] at h; exact absurd h (by simp)
        | [a] => rw [matchToks] at h; exact absurd h (by simp)
        | [a, b] => rw [matchToks] at h; exact absurd h (by simp)
        | [a, b, c] => rw [matchToks] at h; exact absurd h (by simp)
        | [a, b, c, d] => rw [matchToks] at h; exact absurd h (by simp)
        | a :: b :: c :: d :: e :: rest =>
          rw [matchToks] at h
          split at h
          · revert h
            cases hm : matchToks f ts (some e) rest with
            | some v =>
              intro h
              cases h
              obtain ⟨hlen, hall⟩ := ih _ _ _ _ hm
              rename_i hcls
              simp only [Bool.and_eq_true] at hcls
              constructor
              · simp only [List.length_cons, hlen, capCount]
                ring
              · intro x hx
                simp only [List.mem_cons] at hx
                rcases hx with rfl | rfl | rfl | rfl | rfl | hx
                · exact hcls.1.1.1.1
                · exact hcls.1.1.1.2
                · exact hcls.1.1.2
                · exact hcls.1.2
                · exact hcls.2
                · exact hall x hx
            | none => intro h; exact absurd h (by simp)
          · exact absurd h (by simp)

/-- The `searchAux` only reports what `matchToks` matched at some position. -/
lemma searchAux_spec : ∀ s pat prev r,
    searchAux pat prev s = some r →
    r.length = 5 * capCount pat ∧ ∀ c ∈ r, asciiLetter c = true := by
  intro s
  induction s with
  | nil =>
    intro pat prev r h
    rw [searchAux] at h
    revert h
    cases hm : matchToks ([].length + 100) pat prev [] with
    | some v => intro h; cases h; exact matchToks_spec _ _ _ _ _ hm
    | none => intro h; exact absurd h (by simp)
  | cons c rest ih =>
    intro pat prev r h
    rw [searchAux] at h
    revert h
    cases hm : matchToks ((c :: rest).length + 100) pat prev (c :: rest) with
    | some v => intro h; cases h; exact matchToks_spec _ _ _ _ _ hm
    | none => intro h; exact ih _ _ _ h

/-- Every pattern of the script has exactly one capturing group. -/
lemma patterns_capCount : ∀ p ∈ patterns, capCount p = 1 := by decide

/-- Upper-casing an ASCII letter gives a character in `A`-`Z`. -/
lemma pyUpperChar_range {c : Char} (h : asciiLetter c = true) :
    65 ≤ (pyUpperChar c).toNat ∧ (pyUpperChar c).toNat ≤ 90 := by
  unfold asciiLetter at h
  unfold pyUpperChar
  simp only [Bool.or_eq_true, Bool.and_eq_true, decide_eq_true_eq] at h
  rcases h with h | h
  · rw [if_neg]
    · exact h
    · simp only [Bool.and_eq_true, decide_eq_true_eq, not_and]
      omega
  · rw [if_pos]
    · obtain ⟨h1, h2⟩ := h
      generalize c.toNat = n at h1 h2
      interval_cases n <;> decide
    · simp only [Bool.and_eq_true, decide_eq_true_eq]
      omega

/-! ## Trace projections and loop lemmas -/

/-- The URLs of the `goto` events of a trace, in order. -/
def gotoUrls (evs : List Ev) : List String :=
  evs.filterMap fun e =>
    match e with
    | Ev.goto u => some u
    | _ => none

/-- The selectors of the `waitSel` events of a trace, in order. -/
def selAttempts (evs : List Ev) : List String :=
  evs.filterMap fun e =>
    match e with
    | Ev.waitSel s => some s
    | _ => none

lemma clickLoop_mem (env : Env) : ∀ sels i e, e ∈ (clickLoop env i sels).2 →
    (∃ s, e = Ev.waitSel s ∨ e = Ev.clickSel s) ∨ e = Ev.printClicked := by
  intro sels
  induction sels with
  | nil => intro i e he; simp [clickLoop] at he
  | cons sel rest ih =>
    intro i e he
    unfold clickLoop at he
    cases hres : env.selRes i <;> rw [hres] at he <;> simp at he
    · rcases he with rfl | he
      · exact Or.inl ⟨sel, Or.inl rfl⟩
      · exact ih (i + 1) e he
    · rcases he with rfl | rfl | he
      · exact Or.inl ⟨sel, Or.inl rfl⟩
      · exact Or.inl ⟨sel, Or.inr rfl⟩
      · exact ih (i + 1) e he
    · rcases he with rfl | rfl | rfl
      · exact Or.inl ⟨sel, Or.inl rfl⟩
      · exact Or.inl ⟨sel, Or.inr rfl⟩
      · exact Or.inr rfl

lemma gotoUrls_clickLoop (env : Env) : ∀ sels i,
    gotoUrls (clickLoop env i sels).2 = [] := by
  intro sels
  induction sels with
  | nil => intro i; simp [clickLoop, gotoUrls]
  | cons sel rest ih =>
    intro i
    unfold clickLoop
    cases hres : env.selRes i <;>
      simp [gotoUrls, List.filterMap_cons] <;>
      simpa [gotoUrls] using ih (i + 1)

lemma selAttempts_clickLoop (env : Env) : ∀ sels i,
    ∃ k, selAttempts (clickLoop env i sels).2 = sels.take k := by
  intro sels
  induction sels with
  | nil => intro i; exact ⟨0, by simp [clickLoop, selAttempts]⟩
  | cons sel rest ih =>
    intro i
    unfold clickLoop
    cases hres : env.selRes i
    · obtain ⟨k, hk⟩ := ih (i + 1)
      exact ⟨k + 1, by simp [selAttempts, List.filterMap_cons]; simpa [selAttempts] using hk⟩
    · obtain ⟨k, hk⟩ := ih (i + 1)
      exact ⟨k + 1, by simp [selAttempts, List.filterMap_cons]; simpa [selAttempts] using hk⟩
    · exact ⟨1, by simp [selAttempts, List.filterMap_cons]⟩

lemma clickLoop_not_clicked {env : Env} (h : ∀ j, env.selRes j ≠ SelRes.clickOk) :
    ∀ sels i, (clickLoop env i sels).1 = false := by
  intro sels
  induction sels with
  | nil => intro i; simp [clickLoop]
  | cons sel rest ih =>
    intro i
    unfold clickLoop
    cases hres : env.selRes i
    · exact ih (i + 1)
    · exact ih (i + 1)
    · exact absurd hres (h i)

/-! ## Date-string shape -/

/-- A month/day/year date, as a run of the script formats it: two digits,
a slash, two digits, a slash, four digits. -/
def isCalDateStr (s : String) : Bool :=
  match s.toList with
  | [m1, m2, s1, d1, d2, s2, y1, y2, y3, y4] =>
    pyDigit m1 && pyDigit m2 && s1 = '/' && pyDigit d1 && pyDigit d2 &&
      s2 = '/' && pyDigit y1 && pyDigit y2 && pyDigit y3 && pyDigit y4
  | _ => false

lemma pyDigit_digit10 (n : Nat) : pyDigit (digit10 n) = true := by
  unfold digit10
  have h : n % 10 < 10 := Nat.mod_lt _ (by omega)
  have hall : ∀ k < 10, pyDigit (Nat.digitChar k) = true := by decide
  exact hall _ h

lemma isCalDateStr_fmtDate (d : Date) : isCalDateStr (fmtDate d) = true := by
  have h10 : (fmtDate d).toList =
      [digit10 (d.month / 10), digit10 d.month, '/',
       digit10 (d.day / 10), digit10 d.day, '/',
       digit10 (d.year / 1000), digit10 (d.year / 100),
       digit10 (d.year / 10), digit10 d.year] := rfl
  unfold isCalDateStr
  rw [h10]
  simp [pyDigit_digit10]

/-- A current date whose fields a real run can have: month and day in
range, and a year for which the four-digit `%Y` model is exact even after
stepping to tomorrow. -/
def validDate (d : Date) : Bool :=
  1 ≤ d.month && d.month ≤ 12 && 1 ≤ d.day && d.day ≤ daysInMonth d.year d.month &&
    1000 ≤ d.year && d.year ≤ 9998

/-- Characterisation of `extractWord`: any word it returns is five
upper-case ASCII letters. -/
lemma extractWord_spec {t w : String} (h : extractWord t = some w) :
    w.length = 5 ∧ ∀ c ∈ w.toList, 65 ≤ c.toNat ∧ c.toNat ≤ 90 := by
  unfold extractWord at h
  revert h
  cases hf : patterns.findSome? (fun p => reSearch p t) with
  | none => intro h; exact absurd h (by simp)
  | some r =>
    intro h
    have h' : String.mk (r.map pyUpperChar) = w := Option.some.inj h
    obtain ⟨p, hmem, hp⟩ := findSome?_some hf
    have hcap : capCount p = 1 := patterns_capCount p hmem
    unfold reSearch at hp
    obtain ⟨hlen, hall⟩ := searchAux_spec _ _ _ _ hp
    subst h'
    refine ⟨?_, ?_⟩
    · show (r.map pyUpperChar).length = 5
      simp [List.length_map, hlen, hcap]
    · intro c hc
      have hc' : c ∈ r.map pyUpperChar := hc
      obtain ⟨c0, hc0, rfl⟩ := List.mem_map.mp hc'
      exact pyUpperChar_range (hall c0 hc0)

/-! ## Concrete inputs used by the witnesses -/

/-- A concrete current date. -/
def d0 : Date := ⟨2025, 10, 12⟩

/-- A concrete fetched record. -/
def wd0 : WordData := ⟨"CRANE", 1577, "10/13/2025"⟩

/-- A concrete subprocess outcome: nonzero exit, duplicate marker. -/
def res0 : CmdResult := ⟨1, "Word already exists in database", ""⟩

/-- An environment in which everything succeeds and the page text is `t`. -/
def envOk (t : String) : Env :=
  ⟨true, true, true, fun _ => SelRes.clickOk, some t⟩

/-! ## Run-level lemmas -/

lemma warn_mem {b : Bool} {e : Ev}
    (h : e ∈ (if b then ([] : List Ev) else [Ev.printRevealWarn])) :
    e = Ev.printRevealWarn := by
  cases b <;> simp_all

/-- Every event a `fetch` trace can contain; in particular the only `goto`
is to the computed review URL, and there is no `runCmd`. -/
lemma fetch_mem_shape {today : Date} {env : Env} {e : Ev}
    (he : e ∈ (fetch today env).2) :
    e = Ev.connect ∨ e = Ev.printConnGuidance ∨ e = Ev.printNoContext ∨
    e = Ev.newPage ∨ e = Ev.goto (reviewUrl today) ∨
    (∃ s, e = Ev.waitSel s ∨ e = Ev.clickSel s) ∨ e = Ev.printClicked ∨
    e = Ev.printRevealWarn ∨ e = Ev.readText ∨
    (∃ w, e = Ev.printFoundWord w) ∨ e = Ev.printExtractError ∨
    e = Ev.saveDebug ∨ e = Ev.printInfoBlock ∨ e = Ev.closePage ∨
    e = Ev.closeBrowser ∨ e = Ev.killProc ∨ e = Ev.printErr := by
  unfold fetch at he
  cases hcv : env.connectOk <;> rw [hcv] at he
  · simp at he
    rcases he with rfl | rfl <;> tauto
  · cases hxv : env.hasContext <;> rw [hxv] at he
    · simp at he
      rcases he with rfl | rfl | rfl <;> tauto
    · cases hnv : env.navOk <;> rw [hnv] at he
      · simp at he
        rcases he with rfl | rfl | rfl | rfl | rfl | rfl <;> tauto
      · simp only [Bool.not_true, Bool.false_eq_true, if_false] at he
        cases hpt : env.pageText
        · simp only [hpt, List.mem_cons, List.mem_append, List.not_mem_nil,
            or_false] at he
          rcases he with (rfl | rfl | rfl | (hcl | hwarn)) | (rfl | rfl | rfl | rfl)
          · tauto
          · tauto
          · tauto
          · rcases clickLoop_mem env _ _ _ hcl with ⟨s, hs⟩ | hs
            · exact Or.inr (Or.inr (Or.inr (Or.inr (Or.inr (Or.inl ⟨s, hs⟩)))))
            · tauto
          · have := warn_mem hwarn; tauto
          · tauto
          · tauto
          · tauto
          · tauto
        · rename_i t
          simp only [hpt] at he
          cases hw : extractWord t
          · simp only [hw, List.mem_cons, List.mem_append, List.not_mem_nil,
              or_false] at he
            rcases he with (rfl | rfl | rfl | (hcl | hwarn)) | (rfl | rfl | rfl)
            · tauto
            · tauto
            · tauto
            · rcases clickLoop_mem env _ _ _ hcl with ⟨s, hs⟩ | hs
              · exact Or.inr (Or.inr (Or.inr (Or.inr (Or.inr (Or.inl ⟨s, hs⟩)))))
              · tauto
            · have := warn_mem hwarn; tauto
            · tauto
            · tauto
            · tauto
          · rename_i w
            simp only [hw, List.mem_cons, List.mem_append, List.not_mem_nil,
              or_false] at he
            rcases he with (rfl | rfl | rfl | (hcl | hwarn)) | (rfl | rfl | rfl | rfl | rfl | rfl)
            · tauto
            · tauto
            · tauto
            · rcases clickLoop_mem env _ _ _ hcl with ⟨s, hs⟩ | hs
              · exact Or.inr (Or.inr (Or.inr (Or.inr (Or.inr (Or.inl ⟨s, hs⟩)))))
              · tauto
            · have := warn_mem hwarn; tauto
            · tauto
            · tauto
            · tauto
            · tauto
            · tauto
            · tauto

/-- The `fetch_nyt_wordle` itself never invokes the external command. -/
lemma fetch_no_runCmd (today : Date) (env : Env) (argv : List String) :
    Ev.runCmd argv ∉ (fetch today env).2 := by
  intro hm
  rcases fetch_mem_shape hm with
    h | h | h | h | h | ⟨s, h | h⟩ | h | h | h | ⟨w, h⟩ | h | h | h | h | h | h | h <;>
    simp at h

/-- When the fetch fails, `main` appends only the failure report. -/
lemma mainRun_none {today : Date} {env : Env} {res : CmdResult}
    (h : (fetch today env).1 = none) :
    mainRun today env res = (fetch today env).2 ++ [Ev.printFailed] := by
  unfold mainRun
  rcases hfe : fetch today env with ⟨o, evs⟩
  rw [hfe] at h
  simp only at h
  subst h
  simp

lemma mainRun_no_runCmd_of_none {today : Date} {env : Env} {res : CmdResult}
    (h : (fetch today env).1 = none) (argv : List String) :
    Ev.runCmd argv ∉ mainRun today env res := by
  rw [mainRun_none h]
  intro hm
  rcases List.mem_append.mp hm with hm | hm
  · exact fetch_no_runCmd today env argv hm
  · simp at hm

/-- Inversion of a successful fetch: all stages succeeded and the record's
fields are the extracted word, the game number and tomorrow's date. -/
lemma fetch_some_inv {today : Date} {env : Env} {r : WordData}
    (h : (fetch today env).1 = some r) :
    env.connectOk = true ∧ env.hasContext = true ∧ env.navOk = true ∧
    ∃ t w, env.pageText = some t ∧ extractWord t = some w ∧
      r = ⟨w, gameNumber today, dateStr today⟩ := by
  unfold fetch at h
  cases hcv : env.connectOk <;> rw [hcv] at h
  · simp at h
  · cases hxv : env.hasContext <;> rw [hxv] at h
    · simp at h
    · cases hnv : env.navOk <;> rw [hnv] at h
      · simp at h
      · simp only [Bool.not_true, Bool.false_eq_true, if_false] at h
        cases hpt : env.pageText
        · simp only [hpt] at h
          simp at h
        · rename_i t
          simp only [hpt] at h
          cases hw : extractWord t
          · simp only [hw] at h
            simp at h
          · rename_i w
            simp only [hw] at h
            refine ⟨rfl, rfl, rfl, t, w, rfl, hw, ?_⟩
            exact (Option.some.inj h).symm

/-! ## The claims -/

/-- C5: when the connection to the browser's debugging port fails, the
guidance block is reported to the console and `fetch_nyt_wordle` returns
`None` at once: its trace is exactly the connection attempt and the
guidance, so there is no navigation, no selector attempt, no page read, and
the database hand-off never runs in that run of `main`. -/
theorem connect_failure_halts (today : Date) (env : Env) (res : CmdResult)
    (hc : env.connectOk = false) :
    fetch today env = (none, [Ev.connect, Ev.printConnGuidance]) ∧
    (∀ u, Ev.goto u ∉ (fetch today env).2) ∧
    (∀ s, Ev.waitSel s ∉ (fetch today env).2) ∧
    Ev.readText ∉ (fetch today env).2 ∧
    (∀ argv, Ev.runCmd argv ∉ mainRun today env res) := by
  have hfe : fetch today env = (none, [Ev.connect, Ev.printConnGuidance]) := by
    unfold fetch
    rw [hc]
    simp
  refine ⟨hfe, ?_, ?_, ?_, ?_⟩
  · intro u
    rw [hfe]
    simp
  · intro s
    rw [hfe]
    simp
  · rw [hfe]
    simp
  · intro argv
    exact mainRun_no_runCmd_of_none (by rw [hfe]) argv

/-- Witness for C5: a run whose connection fails. -/
theorem connect_failure_halts_w :
    fetch d0 ⟨false, true, true, fun _ => SelRes.clickOk, some "x"⟩ =
      (none, [Ev.connect, Ev.printConnGuidance]) ∧
    Ev.readText ∉ (fetch d0 ⟨false, true, true, fun _ => SelRes.clickOk, some "x"⟩).2 :=
  ⟨(connect_failure_halts d0 _ res0 rfl).1,
   (connect_failure_halts d0 _ res0 rfl).2.2.2.1⟩

/-- C3: for every page text no extraction pattern matches, the failure is
reported to the console (on any run that reaches extraction),
`fetch_nyt_wordle` returns `None`, and `main` short-circuits: the external
database-update command is never invoked in that run. -/
theorem extract_failure_halts (today : Date) (env : Env) (res : CmdResult)
    (t : String) (hpt : env.pageText = some t) (hw : extractWord t = none) :
    (fetch today env).1 = none ∧
    (env.connectOk = true → env.hasContext = true → env.navOk = true →
      Ev.printExtractError ∈ (fetch today env).2) ∧
    (∀ argv, Ev.runCmd argv ∉ mainRun today env res) := by
  have hnone : (fetch today env).1 = none := by
    cases hfo : (fetch today env).1 with
    | none => rfl
    | some r =>
      obtain ⟨-, -, -, t', w, hpt', hw', -⟩ := fetch_some_inv hfo
      rw [hpt] at hpt'
      obtain rfl : t = t' := Option.some.inj hpt'
      rw [hw] at hw'
      exact absurd hw' (by simp)
  refine ⟨hnone, ?_, fun argv => mainRun_no_runCmd_of_none hnone argv⟩
  intro hc hx hn
  unfold fetch
  rw [hc, hx, hn]
  simp only [Bool.not_true, Bool.false_eq_true, if_false]
  simp only [hpt, hw]
  simp

/-- Witness for C3: an otherwise-successful run whose page text matches no
pattern. -/
theorem extract_failure_halts_w :
    (fetch d0 (envOk "nothing here")).1 = none ∧
    Ev.printExtractError ∈ (fetch d0 (envOk "nothing here")).2 :=
  ⟨(extract_failure_halts d0 (envOk "nothing here") res0 "nothing here" rfl
      (by decide)).1,
   (extract_failure_halts d0 (envOk "nothing here") res0 "nothing here" rfl
      (by decide)).2.1 rfl rfl rfl⟩

/-- C1: whenever extraction succeeds, `fetch_nyt_wordle` returns a record
with exactly the fields `word`, `game_number` and `date` (the three fields
of `WordData`): the word is a 5-letter string (of uppercase letters), the
game number is the integer computed from the current date, and the date is
a calendar-date string of the shape `MM/DD/YYYY`. -/
theorem fetch_record_fields (today : Date) (env : Env) (r : WordData)
    (hv : validDate today = true) (h : (fetch today env).1 = some r) :
    r.word.length = 5 ∧
    (∀ c ∈ r.word.toList, 65 ≤ c.toNat ∧ c.toNat ≤ 90) ∧
    r.game_number = gameNumber today ∧
    r.date = dateStr today ∧ isCalDateStr r.date = true := by
  obtain ⟨-, -, -, t, w, hpt, hw, rfl⟩ := fetch_some_inv h
  obtain ⟨hlen, hall⟩ := extractWord_spec hw
  exact ⟨hlen, hall, rfl, rfl, isCalDateStr_fmtDate _⟩

/-- Witness for C1 at a concrete successful run. -/
theorem fetch_record_fields_w :
    validDate d0 = true ∧
    (⟨"CRANE", gameNumber d0, dateStr d0⟩ : WordData).word.length = 5 ∧
    isCalDateStr (⟨"CRANE", gameNumber d0, dateStr d0⟩ : WordData).date = true :=
  ⟨by decide,
   (fetch_record_fields d0 (envOk "the answer is crane") _ (by decide)
      (by decide)).1,
   (fetch_record_fields d0 (envOk "the answer is crane") _ (by decide)
      (by decide)).2.2.2.2⟩

/-- C9: the word of any returned record is exactly 5 characters long and
consists only of uppercase ASCII letters, whatever the page text: the
patterns are matched case-insensitively and the captured group is
upper-cased before being returned. -/
theorem fetch_word_uppercase (today : Date) (env : Env) (r : WordData)
    (h : (fetch today env).1 = some r) :
    r.word.length = 5 ∧
    (∀ c ∈ r.word.toList, 65 ≤ c.toNat ∧ c.toNat ≤ 90) ∧
    ∃ t, env.pageText = some t ∧ extractWord t = some r.word := by
  obtain ⟨-, -, -, t, w, hpt, hw, rfl⟩ := fetch_some_inv h
  obtain ⟨hlen, hall⟩ := extractWord_spec hw
  exact ⟨hlen, hall, t, hpt, hw⟩

/-- Witness for C9 at a page showing the answer in lowercase. -/
theorem fetch_word_uppercase_w :
    (⟨"SIEGE", gameNumber d0, dateStr d0⟩ : WordData).word.length = 5 ∧
    (∀ c ∈ (⟨"SIEGE", gameNumber d0, dateStr d0⟩ : WordData).word.toList,
      65 ≤ c.toNat ∧ c.toNat ≤ 90) ∧
    ∃ t, (envOk "Todays word is siege").pageText = some t ∧
      extractWord t = some "SIEGE" :=
  fetch_word_uppercase d0 (envOk "Todays word is siege") _ (by decide)

/-- C10: a run in which no reveal selector's click succeeds (not found, or
the click raises) is non-fatal: the warning is printed, the page text is
still read, and when a pattern matches, the record is returned — the
reveal failure alone never makes `fetch_nyt_wordle` return `None`. -/
theorem reveal_failure_nonfatal (today : Date) (env : Env) (t w : String)
    (hc : env.connectOk = true) (hx : env.hasContext = true)
    (hn : env.navOk = true)
    (hnosel : ∀ j, env.selRes j ≠ SelRes.clickOk)
    (hpt : env.pageText = some t) (hw : extractWord t = some w) :
    Ev.printRevealWarn ∈ (fetch today env).2 ∧
    Ev.readText ∈ (fetch today env).2 ∧
    (fetch today env).1 = some ⟨w, gameNumber today, dateStr today⟩ := by
  have hcl : (clickLoop env 0 revealSelectors).1 = false :=
    clickLoop_not_clicked hnosel _ _
  unfold fetch
  rw [hc, hx, hn]
  simp only [Bool.not_true, Bool.false_eq_true, if_false]
  simp only [hpt, hw, hcl]
  exact ⟨by simp, by simp, by simp⟩

/-- An environment in which all stages succeed but no reveal selector is
found. -/
def envNoSel (t : String) : Env :=
  ⟨true, true, true, fun _ => SelRes.notFound, some t⟩

/-- Witness for C10 at a concrete run with no clickable reveal control. -/
theorem reveal_failure_nonfatal_w :
    Ev.printRevealWarn ∈ (fetch d0 (envNoSel "the answer is crane")).2 ∧
    (fetch d0 (envNoSel "the answer is crane")).1 =
      some ⟨"CRANE", gameNumber d0, dateStr d0⟩ :=
  ⟨(reveal_failure_nonfatal d0 (envNoSel "the answer is crane")
      "the answer is crane" "CRANE" rfl rfl rfl (fun j h => SelRes.noConfusion h) rfl
      (by decide)).1,
   (reveal_failure_nonfatal d0 (envNoSel "the answer is crane")
      "the answer is crane" "CRANE" rfl rfl rfl (fun j h => SelRes.noConfusion h) rfl
      (by decide)).2.2⟩

/-- C8: the navigation target is a computed URL: for a fixed current date,
every `goto` of every run targets `reviewUrl today`, and every returned
record carries `gameNumber today` — so two runs on the same date compute
the same game number and the same URL, whatever their environments. -/
theorem computed_url_deterministic (today : Date) :
    (∀ env u, Ev.goto u ∈ (fetch today env).2 → u = reviewUrl today) ∧
    (∀ env r, (fetch today env).1 = some r → r.game_number = gameNumber today) := by
  constructor
  · intro env u hm
    rcases fetch_mem_shape hm with
      h | h | h | h | h | ⟨s, h | h⟩ | h | h | h | ⟨w, h⟩ | h | h | h | h | h | h | h <;>
      first
        | exact Ev.goto.inj h
        | simp at h
  · intro env r h
    obtain ⟨-, -, -, t, w, -, -, rfl⟩ := fetch_some_inv h
    rfl

/-- Witness for C8 at two concrete runs on the same date. -/
theorem computed_url_deterministic_w :
    reviewUrl d0 = reviewUrl d0 ∧
    (⟨"CRANE", gameNumber d0, dateStr d0⟩ : WordData).game_number = gameNumber d0 :=
  ⟨(computed_url_deterministic d0).1 (envOk "the answer is crane")
      (reviewUrl d0) (by decide),
   (computed_url_deterministic d0).2 (envOk "the answer is crane") _ (by decide)⟩

/-- C7: no failed step is ever re-attempted: in every run the trace has at
most one navigation (`goto`), and the reveal selectors attempted are an
initial segment of the selector list — each selector is tried at most once,
in the order of the list. -/
theorem no_retries (today : Date) (env : Env) :
    (gotoUrls (fetch today env).2).length ≤ 1 ∧
    (∃ k, selAttempts (fetch today env).2 = revealSelectors.take k) ∧
    (selAttempts (fetch today env).2).Nodup := by
  have hnd : revealSelectors.Nodup := by decide
  have hg := gotoUrls_clickLoop env revealSelectors 0
  obtain ⟨k, hk⟩ := selAttempts_clickLoop env revealSelectors 0
  simp only [gotoUrls] at hg
  simp only [selAttempts] at hk
  have hknd : (revealSelectors.take k).Nodup :=
    List.Nodup.sublist (List.take_sublist k revealSelectors) hnd
  unfold fetch
  cases hcv : env.connectOk
  · exact ⟨by simp [gotoUrls], ⟨0, by simp [selAttempts]⟩, by simp [selAttempts]⟩
  · cases hxv : env.hasContext
    · exact ⟨by simp [gotoUrls], ⟨0, by simp [selAttempts]⟩, by simp [selAttempts]⟩
    · cases hnv : env.navOk
      · exact ⟨by simp [gotoUrls], ⟨0, by simp [selAttempts]⟩, by simp [selAttempts]⟩
      · simp only [Bool.not_true, Bool.false_eq_true, if_false]
        cases hclk : (clickLoop env 0 revealSelectors).1 <;>
          cases hpt : env.pageText
        · refine ⟨?_, ⟨k, ?_⟩, ?_⟩
          · simp [gotoUrls, hg]
          · simp [selAttempts, hk]
          · simp [selAttempts, hk, hknd]
        · rename_i t
          cases hw : extractWord t
          · refine ⟨?_, ⟨k, ?_⟩, ?_⟩
            · simp [gotoUrls, hg, hw]
            · simp [selAttempts, hk, hw]
            · simp [selAttempts, hk, hknd, hw]
          · refine ⟨?_, ⟨k, ?_⟩, ?_⟩
            · simp [gotoUrls, hg, hw]
            · simp [selAttempts, hk, hw]
            · simp [selAttempts, hk, hknd, hw]
        · refine ⟨?_, ⟨k, ?_⟩, ?_⟩
          · simp [gotoUrls, hg]
          · simp [selAttempts, hk]
          · simp [selAttempts, hk, hknd]
        · rename_i t
          cases hw : extractWord t
          · refine ⟨?_, ⟨k, ?_⟩, ?_⟩
            · simp [gotoUrls, hg, hw]
            · simp [selAttempts, hk, hw]
            · simp [selAttempts, hk, hknd, hw]
          · refine ⟨?_, ⟨k, ?_⟩, ?_⟩
            · simp [gotoUrls, hg, hw]
            · simp [selAttempts, hk, hw]
            · simp [selAttempts, hk, hknd, hw]

/-- Counterexample to C6 as stated: a run that opened a page (its trace
contains `newPage`) and returns with NEITHER the page NOR the browser
connection closed — the extraction-failure path of source lines 142-164,
whose comment reads "Don't close browser - let user see what's on the
page". -/
theorem page_left_open_cx :
    (fetch d0 (envOk "nothing here")).1 = none ∧
    Ev.newPage ∈ (fetch d0 (envOk "nothing here")).2 ∧
    Ev.closePage ∉ (fetch d0 (envOk "nothing here")).2 ∧
    Ev.closeBrowser ∉ (fetch d0 (envOk "nothing here")).2 := by
  decide

/-- C6 amended: on every path that returns a record, the page and the
browser connection are closed before the function returns, and on every
in-page exception path (one that printed `[ERROR] {e}`) the browser
connection is closed; only the extraction-failure path deliberately leaves
the page open for inspection. -/
theorem fetch_close_discipline (today : Date) (env : Env) :
    (∀ r, (fetch today env).1 = some r →
      Ev.closePage ∈ (fetch today env).2 ∧
      Ev.closeBrowser ∈ (fetch today env).2) ∧
    (Ev.printErr ∈ (fetch today env).2 →
      Ev.closeBrowser ∈ (fetch today env).2) := by
  constructor
  · intro r h
    obtain ⟨hc, hx, hn, t, w, hpt, hw, -⟩ := fetch_some_inv h
    unfold fetch
    rw [hc, hx, hn]
    simp only [Bool.not_true, Bool.false_eq_true, if_false]
    simp only [hpt, hw]
    constructor <;> simp
  · unfold fetch
    cases hcv : env.connectOk
    · intro hpe
      simp at hpe
    · cases hxv : env.hasContext
      · intro hpe
        simp at hpe
      · cases hnv : env.navOk
        · intro hpe
          simp
        · simp only [Bool.not_true, Bool.false_eq_true, if_false]
          cases hpt : env.pageText
          · intro hpe
            simp
          · rename_i t
            cases hw : extractWord t
            · intro hpe
              exfalso
              simp only [hw, List.mem_cons, List.mem_append, List.not_mem_nil,
                or_false] at hpe
              rcases hpe with (h | h | h | (hcl | hwarn)) | (h | h | h)
              · exact absurd h (by simp)
              · exact absurd h (by simp)
              · exact absurd h (by simp)
              · rcases clickLoop_mem env _ _ _ hcl with ⟨s, hs | hs⟩ | hs <;>
                  simp at hs
              · exact absurd (warn_mem hwarn) (by simp)
              · exact absurd h (by simp)
              · exact absurd h (by simp)
              · exact absurd h (by simp)
            · intro hpe
              simp [hw]

/-- Witness for the amended C6 at a concrete successful run. -/
theorem fetch_close_discipline_w :
    Ev.closePage ∈ (fetch d0 (envOk "the answer is crane")).2 ∧
    Ev.closeBrowser ∈ (fetch d0 (envOk "the answer is crane")).2 :=
  (fetch_close_discipline d0 (envOk "the answer is crane")).1
    ⟨"CRANE", gameNumber d0, dateStr d0⟩ (by decide)

/-- C2: `add_word_to_database` determines success from the subprocess exit
status and output text: it returns `True` iff the exit status is 0, and on
a nonzero exit status it reports the duplicate case (`[INFO] Word was not
added - already exists`) exactly when the combined stdout+stderr contains
"already exists" or "No changes made", returning `False` in either nonzero
case. -/
theorem add_word_exit_code (wd : WordData) (res : CmdResult) :
    ((add_word_to_database wd res).1 = true ↔ res.returncode = 0) ∧
    (res.returncode ≠ 0 →
      (add_word_to_database wd res).1 = false ∧
      (Ev.printDupInfo ∈ (add_word_to_database wd res).2 ↔
        (strContains (res.stdout ++ res.stderr) "already exists" = true ∨
         strContains (res.stdout ++ res.stderr) "No changes made" = true))) := by
  unfold add_word_to_database
  by_cases hrc : res.returncode = 0
  · simp [hrc]
  · by_cases hdup : (strContains (res.stdout ++ res.stderr) "already exists" ||
        strContains (res.stdout ++ res.stderr) "No changes made") = true
    · simp only [Bool.or_eq_true] at hdup
      simp [hrc, hdup]
    · simp only [Bool.or_eq_true, not_or] at hdup
      simp [hrc, hdup.1, hdup.2]

/-- Witness for C2 at a concrete duplicate outcome. -/
theorem add_word_exit_code_w :
    res0.returncode ≠ 0 ∧ (add_word_to_database wd0 res0).1 = false ∧
      Ev.printDupInfo ∈ (add_word_to_database wd0 res0).2 :=
  ⟨by decide, ((add_word_exit_code wd0 res0).2 (by decide)).1,
    ((add_word_exit_code wd0 res0).2 (by decide)).2.mpr (Or.inl (by decide))⟩

/-- C4: whenever `add_word_to_database` runs the external command, the
arguments after the program (`node add-word.mjs`) are exactly the extracted
word and the date, in that order. -/
theorem add_word_cmd_args (wd : WordData) (res : CmdResult) :
    ∀ argv, Ev.runCmd argv ∈ (add_word_to_database wd res).2 →
      argv = ["node", "add-word.mjs", wd.word, wd.date] ∧
      argv.drop 2 = [wd.word, wd.date] := by
  intro argv hm
  unfold add_word_to_database at hm
  have hargv : argv = addArgv wd := by
    by_cases hrc : res.returncode = 0
    · simp [hrc] at hm
      exact hm
    · by_cases hdup : (strContains (res.stdout ++ res.stderr) "already exists" ||
          strContains (res.stdout ++ res.stderr) "No changes made") = true
      · simp [hrc, hdup] at hm
        exact hm
      · simp only [Bool.or_eq_true, not_or] at hdup
        simp [hrc, hdup.1, hdup.2] at hm
        exact hm
  subst hargv
  exact ⟨rfl, rfl⟩

/-- Witness for C4 at a concrete record and subprocess outcome. -/
theorem add_word_cmd_args_w :
    addArgv wd0 = ["node", "add-word.mjs", wd0.word, wd0.date] ∧
      (addArgv wd0).drop 2 = [wd0.word, wd0.date] :=
  add_word_cmd_args wd0 res0 (addArgv wd0) (by decide)

end WordleMatch
